import Mathlib

/-!
Verification of the task orchestration engine of the wandai backend.

The embedded code lives in
`backend/app/services/enhanced_agent_orchestrator.py`,
`backend/app/services/context_manager.py`,
`backend/app/core/tools.py` and `backend/app/models/schemas.py`.

Modelling conventions: Python dictionaries built by the orchestrator are
association lists with `String` keys and `PyVal` values; floats are rationals;
timestamps are rationals counting seconds.  Each definition's doc comment
names the Python function it embeds.
-/

namespace WandAI

/-- A Python value as stored in the dictionaries the orchestrator builds. -/
inductive PyVal where
  | str : String → PyVal
  | num : ℚ → PyVal
  | boolV : Bool → PyVal
  | list : List PyVal → PyVal
  | dict : List (String × PyVal) → PyVal

/-- `key in d` for a Python dict modelled as an association list. -/
def dictHasKey (d : List (String × PyVal)) (k : String) : Bool :=
  d.any (fun p => p.1 = k)

/-- `d[k]` lookup, `none` when the key is absent. -/
def dictLookup (d : List (String × PyVal)) (k : String) : Option PyVal :=
  (d.find? (fun p => p.1 = k)).map Prod.snd

/-- `d.get(k, default)` for a string-valued entry.  Dicts built by the
orchestrator store strings under the keys this is used with, so restricting
to the `.str` constructor is faithful on all reachable inputs. -/
def dictGetStr (d : List (String × PyVal)) (k : String) (dflt : String) : String :=
  match dictLookup d k with
  | some (.str s) => s
  | _ => dflt

/-- `d.get(k, default)` for a numeric entry (same remark as `dictGetStr`). -/
def dictGetNum (d : List (String × PyVal)) (k : String) (dflt : ℚ) : ℚ :=
  match dictLookup d k with
  | some (.num q) => q
  | _ => dflt

/-- Python dict assignment `d[k] = v`: replace the entry when the key is
present, append it otherwise. -/
def assocSet {β : Type} (m : List (String × β)) (k : String) (v : β) :
    List (String × β) :=
  if m.any (fun p => p.1 = k) then
    m.map (fun p => if p.1 = k then (k, v) else p)
  else m ++ [(k, v)]

/-- Association-list lookup used for keyed state (dict `d.get(k)`). -/
def assocFind {β : Type} (m : List (String × β)) (k : String) : Option β :=
  (m.find? (fun p => p.1 = k)).map Prod.snd

/-- The status enum `AgentStatus` of `schemas.py` (lines 7-12).  It doubles as
the task status enum: `TaskStatus.status` has this type. -/
inductive AgentStatus where
  | planning
  | executing
  | completed
  | failed
  | paused
  deriving DecidableEq, Repr

/-- The `TaskStatus` record of `schemas.py` (lines 78-88): the per-task entry
of the orchestrator's task registry `self.tasks`.  `result` holds the final
result dict when present, `errors` the error list. -/
structure TaskStatus where
  task_id : String
  description : String
  status : AgentStatus
  created_at : ℚ
  updated_at : ℚ
  agents : List String
  progress : ℚ
  result : Option PyVal
  errors : List String

/-- Modelled from the spec: `pause_task` is invoked by the pause endpoint
(`enhanced_tasks.py` lines 223-242) but has no implementation in the
repository.  Spec section 4.1: pause succeeds only when the task is
Executing, moving it to Paused; any other call returns false and changes
nothing. -/
def pause_task (t : TaskStatus) : Bool × TaskStatus :=
  if t.status = AgentStatus.executing then (true, { t with status := AgentStatus.paused })
  else (false, t)

/-- Modelled from the spec: `resume_task` is invoked by the resume endpoint
(`enhanced_tasks.py` lines 244-263) but has no implementation in the
repository.  Spec section 4.1: resume succeeds only when the task is Paused,
returning it to Executing; any other call returns false and changes
nothing. -/
def resume_task (t : TaskStatus) : Bool × TaskStatus :=
  if t.status = AgentStatus.paused then (true, { t with status := AgentStatus.executing })
  else (false, t)

/-- Modelled from the spec: `cancel_task` is invoked by the cancel endpoint
(`enhanced_tasks.py` lines 265-284) but has no implementation in the
repository.  Spec sections 4.1 and 5: cancel is permitted only from Executing
or Paused; the status enum has no cancelled value and Failed is the terminal
state a stopped task ends in; any other call returns false and changes
nothing. -/
def cancel_task (t : TaskStatus) : Bool × TaskStatus :=
  if t.status = AgentStatus.executing ∨ t.status = AgentStatus.paused then
    (true, { t with status := AgentStatus.failed })
  else (false, t)

/-- C1: pause succeeds exactly from Executing, resume exactly from Paused,
cancel exactly from Executing or Paused; a rejected call returns false and
leaves the task record (status and all other fields) unchanged. -/
theorem pause_resume_cancel_transitions (t : TaskStatus) :
    ((pause_task t).1 = true ↔ t.status = AgentStatus.executing) ∧
    ((resume_task t).1 = true ↔ t.status = AgentStatus.paused) ∧
    ((cancel_task t).1 = true ↔
      (t.status = AgentStatus.executing ∨ t.status = AgentStatus.paused)) ∧
    ((pause_task t).1 = false → (pause_task t).2 = t) ∧
    ((resume_task t).1 = false → (resume_task t).2 = t) ∧
    ((cancel_task t).1 = false → (cancel_task t).2 = t) := by
  unfold pause_task resume_task cancel_task
  rcases t with ⟨id, d, s, c, u, a, p, r, e⟩
  cases s <;> simp

/-- A concrete completed task used to witness the transition theorem. -/
def completedTask : TaskStatus :=
  { task_id := "t1", description := "demo", status := AgentStatus.completed,
    created_at := 0, updated_at := 10, agents := ["research"], progress := 1,
    result := none, errors := [] }

/-- Witness for C1 at a task in the Completed state: all three operations are
rejected and leave the record unchanged. -/
theorem pause_resume_cancel_transitions_witness :
    (pause_task completedTask).1 = false ∧ (pause_task completedTask).2 = completedTask ∧
    (resume_task completedTask).1 = false ∧ (resume_task completedTask).2 = completedTask ∧
    (cancel_task completedTask).1 = false ∧ (cancel_task completedTask).2 = completedTask :=
  ⟨rfl, (pause_resume_cancel_transitions completedTask).2.2.2.1 rfl,
   rfl, (pause_resume_cancel_transitions completedTask).2.2.2.2.1 rfl,
   rfl, (pause_resume_cancel_transitions completedTask).2.2.2.2.2 rfl⟩

/-! ## Agent selection (`_select_agents_for_task`, orchestrator lines 157-187) -/

/-- Python `s.lower()`, written directly over the character list. -/
def pyLower (s : String) : String :=
  ⟨s.data.map Char.toLower⟩

/-- Does `hay` start with `needle`? -/
def startsWithChars : List Char → List Char → Bool
  | _, [] => true
  | [], _ :: _ => false
  | a :: as, b :: bs => (b = a) && startsWithChars as bs

/-- Does `needle` occur as a contiguous run of `hay`? -/
def hasSubChars : List Char → List Char → Bool
  | [], needle => needle.isEmpty
  | a :: t, needle => startsWithChars (a :: t) needle || hasSubChars t needle

/-- Python substring test `needle in haystack`. -/
def pyContains (haystack needle : String) : Bool :=
  hasSubChars haystack.data needle.data

/-- Accumulator pass of `pySplit`: consume characters, emitting the word
collected in `acc` (held reversed) at each whitespace boundary. -/
def pySplitAux : List Char → List Char → List String
  | [], acc => if acc.isEmpty then [] else [String.mk acc.reverse]
  | c :: cs, acc =>
    if c.isWhitespace then
      if acc.isEmpty then pySplitAux cs [] else String.mk acc.reverse :: pySplitAux cs []
    else pySplitAux cs (c :: acc)

/-- Python `s.split()`: whitespace tokenization, empty tokens dropped. -/
def pySplit (s : String) : List String :=
  pySplitAux s.data []

/-- `len(task_description.split()) > 10` (line 163). -/
def wantsPlanner (task_description : String) : Bool :=
  10 < (pySplit task_description).length

/-- `any(word in task_lower for word in ["research", "find", "gather", "search"])`
(line 167). -/
def wantsResearch (task_lower : String) : Bool :=
  ["research", "find", "gather", "search"].any (fun w => pyContains task_lower w)

/-- `any(word in task_lower for word in ["analyze", "analyze", "data", "trend",
"pattern"])` (line 170; the source lists "analyze" twice). -/
def wantsAnalysis (task_lower : String) : Bool :=
  ["analyze", "analyze", "data", "trend", "pattern"].any (fun w => pyContains task_lower w)

/-- `any(word in task_lower for word in ["create", "generate", "make", "build",
"chart", "report"])` (line 173). -/
def wantsCreator (task_lower : String) : Bool :=
  ["create", "generate", "make", "build", "chart", "report"].any (fun w => pyContains task_lower w)

/-- The list construction of `_select_agents_for_task` (lines 160-187) as a
function of the four keyword-test outcomes: append the matched agents in
source order, append `coordinator` when more than one agent is selected, and
when fewer than two are selected append `research` and then `analysis`
unless already present (both appends guarded by the single `len < 2`
check, as in the source). -/
def selectCore (planner research analysis creator : Bool) : List String :=
  let s0 : List String := []
  let s1 := if planner then s0 ++ ["planner"] else s0
  let s2 := if research then s1 ++ ["research"] else s1
  let s3 := if analysis then s2 ++ ["analysis"] else s2
  let s4 := if creator then s3 ++ ["creator"] else s3
  let s5 := if 1 < s4.length then s4 ++ ["coordinator"] else s4
  if s5.length < 2 then
    let t1 := if "research" ∈ s5 then s5 else s5 ++ ["research"]
    if "analysis" ∈ t1 then t1 else t1 ++ ["analysis"]
  else s5

/-- `_select_agents_for_task(task_description, structured_plan)`: the
`structured_plan` argument is never read by the selection logic. -/
def select_agents_for_task (task_description : String)
    (structured_plan : List (String × PyVal)) : List String :=
  selectCore (wantsPlanner task_description)
    (wantsResearch (pyLower task_description))
    (wantsAnalysis (pyLower task_description))
    (wantsCreator (pyLower task_description))

theorem selectCore_length (planner research analysis creator : Bool) :
    2 ≤ (selectCore planner research analysis creator).length := by
  cases planner <;> cases research <;> cases analysis <;> cases creator <;> decide

/-- C5: for every task description (and any structured plan), agent selection
returns at least two agent names; the defaults `research` and `analysis`
fill any shortfall. -/
theorem select_agents_at_least_two (task_description : String)
    (structured_plan : List (String × PyVal)) :
    2 ≤ (select_agents_for_task task_description structured_plan).length :=
  selectCore_length _ _ _ _

/-! ## Context relevance (`context_manager.py` lines 121-202) -/

/-- Python `set(s.lower().split())`. -/
def pyWordSet (s : String) : Finset String :=
  (pySplit (pyLower s)).toFinset

/-- The agent relationship groups of `_are_agents_related` (lines 169-174). -/
def agentGroups : List (List String) :=
  [["planner", "coordinator"], ["research", "analysis", "creator"],
   ["coordinator", "planner"]]

/-- `_are_agents_related` (lines 167-180): both lower-cased names lie in a
common group. -/
def are_agents_related (agent1 agent2 : String) : Bool :=
  agentGroups.any (fun g => g.contains (pyLower agent1) && g.contains (pyLower agent2))

/-- `_calculate_task_relevance` (lines 182-202): Jaccard similarity of the
lower-cased word sets of the context text and the task, 0 when the task has
no words or the union is empty. -/
def calculate_task_relevance (context_text task : String) : ℚ :=
  let task_words := pyWordSet task
  let context_words := pyWordSet context_text
  if task_words = ∅ then 0
  else
    let inter := (task_words ∩ context_words).card
    let uni := (task_words ∪ context_words).card
    if uni = 0 then 0 else (inter : ℚ) / (uni : ℚ)

/-- `_calculate_context_relevance` (lines 145-165).  `secondsAgo` is the
elapsed time `datetime.now() - output_data["timestamp"]` in seconds; the
score is `same-agent/related-agent base + 0.5 * task relevance + 0.2 *
recency`, capped at 1. -/
def calculate_context_relevance (context_agent : String) (outputText : String)
    (secondsAgo : ℚ) (target_agent : String) (task : String) : ℚ :=
  let base : ℚ :=
    if context_agent = target_agent then 3/10
    else if are_agents_related context_agent target_agent then 2/10
    else 0
  let task_rel := calculate_task_relevance outputText task
  let recency := max 0 (1 - secondsAgo / 3600)
  min (base + task_rel * (5/10) + recency * (2/10)) 1

theorem calculate_task_relevance_nonneg (context_text task : String) :
    0 ≤ calculate_task_relevance context_text task := by
  unfold calculate_task_relevance
  dsimp only
  split
  · exact le_refl 0
  · split
    · exact le_refl 0
    · positivity

theorem calculate_task_relevance_le_one (context_text task : String) :
    calculate_task_relevance context_text task ≤ 1 := by
  unfold calculate_task_relevance
  dsimp only
  split
  · exact zero_le_one
  · split
    · exact zero_le_one
    · rename_i huni
      rw [div_le_one (by positivity)]
      exact_mod_cast Finset.card_le_card Finset.inter_subset_union

/-- C9: the context relevance score lies in `[0, 1]` for every combination of
stored agent, output text, elapsed time (including negative values), target
agent and task; with an empty task description the keyword-overlap component
is 0. -/
theorem relevance_score_bounds (context_agent outputText : String)
    (secondsAgo : ℚ) (target_agent task : String) :
    0 ≤ calculate_context_relevance context_agent outputText secondsAgo target_agent task ∧
    calculate_context_relevance context_agent outputText secondsAgo target_agent task ≤ 1 ∧
    (task = "" → calculate_task_relevance outputText task = 0) := by
  refine ⟨?_, ?_, ?_⟩
  · unfold calculate_context_relevance
    dsimp only
    refine le_min ?_ zero_le_one
    have hbase : (0:ℚ) ≤
        (if context_agent = target_agent then (3:ℚ)/10
         else if are_agents_related context_agent target_agent then 2/10 else 0) := by
      split
      · norm_num
      · split
        · norm_num
        · exact le_refl 0
    have htr := calculate_task_relevance_nonneg outputText task
    have hrec : (0:ℚ) ≤ max 0 (1 - secondsAgo / 3600) := le_max_left 0 _
    nlinarith
  · exact min_le_right _ 1
  · intro h
    subst h
    unfold calculate_task_relevance
    have hempty : pyWordSet "" = ∅ := by decide
    rw [hempty]
    simp

/-- Witness for C9 at a concrete input with an empty task description. -/
theorem relevance_score_bounds_witness :
    0 ≤ calculate_context_relevance "research" "some output" 120 "analysis" "" ∧
    calculate_context_relevance "research" "some output" 120 "analysis" "" ≤ 1 ∧
    calculate_task_relevance "some output" "" = 0 :=
  ⟨(relevance_score_bounds "research" "some output" 120 "analysis" "").1,
   (relevance_score_bounds "research" "some output" 120 "analysis" "").2.1,
   (relevance_score_bounds "research" "some output" 120 "analysis" "").2.2 rfl⟩

/-! ## Task progress updates (`execute_task`, orchestrator lines 58-128, and
`_execute_with_intelligent_agents`, lines 189-247) -/

/-- The keys of the orchestrator's agent table (`_initialize_agents`,
lines 48-56). -/
def agentNames : List String :=
  ["planner", "research", "analysis", "creator", "coordinator"]

/-- `agent_name in self.agents` (line 200). -/
def knownAgent (a : String) : Bool :=
  agentNames.any (fun n => n = a)

/-- The progress written before invoking the agent at enumerate-index `i` of
a plan with `total` selected agents: `0.3 + (i * 0.4 / len(selected_agents))`
(line 205). -/
def execVal (total i : ℕ) : ℚ :=
  3/10 + (i : ℚ) * (4/10) / (total : ℚ)

/-- The `(status, progress)` pairs written by the loop of
`_execute_with_intelligent_agents` (lines 199-206): unknown agent names are
skipped (`continue`) but still advance the enumerate index `i`. -/
def execUpdatesAux (total : ℕ) : ℕ → List String → List (AgentStatus × ℚ)
  | _, [] => []
  | i, a :: rest =>
    if knownAgent a then
      (AgentStatus.executing, execVal total i) :: execUpdatesAux total (i + 1) rest
    else execUpdatesAux total (i + 1) rest

/-- The progress updates of the execution phase for a selected-agent list. -/
def execUpdates (agents : List String) : List (AgentStatus × ℚ) :=
  execUpdatesAux agents.length 0 agents

/-- How a run of `execute_task` can end: the planning phase raised (line 80);
an unhandled error escaped the execution phase after `k` of its progress
updates (line 247); the `TaskResult` construction at line 102 raised after
the `(executing, 0.8)` write of line 89 — which it does on every run, since
`overall_confidence` is a required field of `TaskResult` (`schemas.py`
line 99, `Field` with bounds but no default) and lines 102-111 do not pass
it; or no exception occurred.  The last case models lines 102-117 as
written; it is unreachable in the current program because `resultFail`
always fires first, making the `(completed, 1.0)` write of line 114 dead
code. -/
inductive ExecOutcome where
  | planFail
  | execFail (k : ℕ)
  | resultFail
  | success

/-- The ordered `(status, progress)` writes `execute_task` makes to the task
registry entry: the record creation at `(planning, 0.0)` (line 71), the
`_update_task_status` calls at lines 76, 83, 205, 89 and 114, and on an
exception the final `(failed, 0.0)` write of line 123. -/
def executeTaskTrace (agents : List String) : ExecOutcome → List (AgentStatus × ℚ)
  | .planFail =>
      [(.planning, 0), (.planning, 1/10), (.failed, 0)]
  | .execFail k =>
      [(.planning, 0), (.planning, 1/10), (.executing, 3/10)] ++
        (execUpdates agents).take k ++ [(.failed, 0)]
  | .resultFail =>
      [(.planning, 0), (.planning, 1/10), (.executing, 3/10)] ++
        execUpdates agents ++ [(.executing, 8/10), (.failed, 0)]
  | .success =>
      [(.planning, 0), (.planning, 1/10), (.executing, 3/10)] ++
        execUpdates agents ++ [(.executing, 8/10), (.completed, 1)]

theorem execVal_lb (total j : ℕ) : 3/10 ≤ execVal total j := by
  unfold execVal
  have h : (0:ℚ) ≤ (j : ℚ) * (4/10) / (total : ℚ) := by positivity
  linarith

theorem execVal_ub (total j : ℕ) (h : j < total) : execVal total j ≤ 7/10 := by
  unfold execVal
  have ht : (0:ℚ) < (total : ℚ) := by
    have : 0 < total := by omega
    exact_mod_cast this
  have hj : (j : ℚ) ≤ (total : ℚ) := by exact_mod_cast Nat.le_of_lt h
  have hdiv : (j : ℚ) * (4/10) / (total : ℚ) ≤ 4/10 := by
    rw [div_le_iff₀ ht]
    nlinarith
  linarith

theorem execVal_mono (total : ℕ) {i j : ℕ} (h : i ≤ j) :
    execVal total i ≤ execVal total j := by
  unfold execVal
  have hc : (0:ℚ) ≤ (4/10) / (total : ℚ) := by positivity
  have hij : (i : ℚ) ≤ (j : ℚ) := by exact_mod_cast h
  have := mul_le_mul_of_nonneg_right hij hc
  rw [mul_div_assoc, mul_div_assoc]
  linarith

theorem mem_execUpdatesAux {total : ℕ} :
    ∀ (rest : List String) (i : ℕ) (p : AgentStatus × ℚ),
      p ∈ execUpdatesAux total i rest →
      ∃ j, i ≤ j ∧ j < i + rest.length ∧ p = (AgentStatus.executing, execVal total j) := by
  intro rest
  induction rest with
  | nil =>
    intro i p h
    simp [execUpdatesAux] at h
  | cons a rest ih =>
    intro i p h
    simp only [execUpdatesAux] at h
    split at h
    · rcases List.mem_cons.mp h with h1 | h2
      · exact ⟨i, le_refl i, by simp only [List.length_cons]; omega, h1⟩
      · obtain ⟨j, hj1, hj2, hj3⟩ := ih (i + 1) p h2
        exact ⟨j, by omega, by simp only [List.length_cons]; omega, hj3⟩
    · obtain ⟨j, hj1, hj2, hj3⟩ := ih (i + 1) p h
      exact ⟨j, by omega, by simp only [List.length_cons]; omega, hj3⟩

theorem chain_execUpdatesAux (total : ℕ) :
    ∀ (rest : List String) (i : ℕ),
      List.Chain' (· ≤ ·) ((execUpdatesAux total i rest).map Prod.snd) := by
  intro rest
  induction rest with
  | nil => intro i; simp [execUpdatesAux]
  | cons a rest ih =>
    intro i
    simp only [execUpdatesAux]
    split
    · rw [List.map_cons]
      refine List.chain'_cons'.mpr ⟨?_, ih (i + 1)⟩
      intro y hy
      have hmem : y ∈ (execUpdatesAux total (i + 1) rest).map Prod.snd :=
        List.mem_of_mem_head? hy
      obtain ⟨p, hp, rfl⟩ := List.mem_map.mp hmem
      obtain ⟨j, hj1, hj2, hp3⟩ := mem_execUpdatesAux rest (i + 1) p hp
      subst hp3
      exact execVal_mono total (by omega)
    · exact ih (i + 1)

theorem takeWhile_all {α : Type} (p : α → Bool) :
    ∀ (l : List α), (∀ a ∈ l, p a = true) → l.takeWhile p = l := by
  intro l
  induction l with
  | nil => intro _; rfl
  | cons a t ih =>
    intro h
    have ha : p a = true := h a (List.mem_cons_self a t)
    simp [List.takeWhile_cons, ha, ih (fun b hb => h b (List.mem_cons_of_mem a hb))]

theorem takeWhile_append_all {α : Type} (p : α → Bool) :
    ∀ (l1 l2 : List α), (∀ a ∈ l1, p a = true) →
      (l1 ++ l2).takeWhile p = l1 ++ l2.takeWhile p := by
  intro l1
  induction l1 with
  | nil => intro l2 _; rfl
  | cons a t ih =>
    intro l2 h
    have ha : p a = true := h a (List.mem_cons_self a t)
    simp [List.takeWhile_cons, ha, ih l2 (fun b hb => h b (List.mem_cons_of_mem a hb))]

theorem chain_take {l : List ℚ} (h : List.Chain' (· ≤ ·) l) (k : ℕ) :
    List.Chain' (· ≤ ·) (l.take k) := by
  have hsplit : l.take k ++ l.drop k = l := List.take_append_drop k l
  rw [← hsplit] at h
  exact (List.chain'_append.mp h).1

/-- Is an update not the terminal Failed write? -/
def notFailed (p : AgentStatus × ℚ) : Bool :=
  match p.1 with
  | AgentStatus.failed => false
  | _ => true

theorem mem_three_append {α : Type} {p : α} {l1 l2 l3 : List α}
    (h : p ∈ l1 ++ l2 ++ l3) : p ∈ l1 ∨ p ∈ l2 ∨ p ∈ l3 := by
  rcases List.mem_append.mp h with h12 | h3
  · rcases List.mem_append.mp h12 with h1 | h2
    · exact Or.inl h1
    · exact Or.inr (Or.inl h2)
  · exact Or.inr (Or.inr h3)

/-- C2 counterexample: on the path where planning fails, the registry first
records progress 0.1 and then the Failed handler resets progress to 0.0 — the
recorded progress sequence decreases. -/
theorem progress_resets_on_failure_cx :
    (executeTaskTrace ["research"] ExecOutcome.planFail).map Prod.snd = [0, 1/10, 0] ∧
    ¬ List.Chain' (· ≤ ·) ((executeTaskTrace ["research"] ExecOutcome.planFail).map Prod.snd) := by
  constructor
  · rfl
  · intro h
    rw [show (executeTaskTrace ["research"] ExecOutcome.planFail).map Prod.snd =
        [0, 1/10, 0] from rfl] at h
    have h2 := (List.chain'_cons.mp h).2
    have h3 := (List.chain'_cons.mp h2).1
    norm_num at h3

/-- C2 amended: along every path, progress 1.0 is written only with status
Completed and the Failed write carries progress 0.0; the update sequence is
non-decreasing up to (but excluding) the Failed reset — on the success path
it is non-decreasing throughout. -/
theorem progress_updates_amended (agents : List String) (o : ExecOutcome) :
    (∀ p ∈ executeTaskTrace agents o, p.2 = 1 → p.1 = AgentStatus.completed) ∧
    (∀ p ∈ executeTaskTrace agents o, p.1 = AgentStatus.failed → p.2 = 0) ∧
    List.Chain' (· ≤ ·)
      (((executeTaskTrace agents o).takeWhile notFailed).map Prod.snd) := by
  have hmemE : ∀ p ∈ execUpdates agents,
      ∃ j, j < agents.length ∧ p = (AgentStatus.executing, execVal agents.length j) := by
    intro p hp
    obtain ⟨j, _, hj2, hj3⟩ := mem_execUpdatesAux agents 0 p hp
    exact ⟨j, by omega, hj3⟩
  have hvalE : ∀ p ∈ execUpdates agents,
      3/10 ≤ p.2 ∧ p.2 ≤ 7/10 ∧ p.1 = AgentStatus.executing := by
    intro p hp
    obtain ⟨j, hj, rfl⟩ := hmemE p hp
    exact ⟨execVal_lb _ _, execVal_ub _ _ hj, rfl⟩
  have hchainE : List.Chain' (· ≤ ·) ((execUpdates agents).map Prod.snd) :=
    chain_execUpdatesAux agents.length agents 0
  have hchainA : List.Chain' (· ≤ ·) ([0, 1/10, 3/10] : List ℚ) :=
    List.chain'_cons.mpr ⟨by norm_num,
      List.chain'_cons.mpr ⟨by norm_num, List.chain'_singleton _⟩⟩
  cases o with
  | planFail =>
    refine ⟨?_, ?_, ?_⟩
    · intro p hp h1
      simp only [executeTaskTrace, List.mem_cons, List.not_mem_nil, or_false] at hp
      rcases hp with rfl | rfl | rfl <;> norm_num at h1
    · intro p hp hf
      simp only [executeTaskTrace, List.mem_cons, List.not_mem_nil, or_false] at hp
      rcases hp with rfl | rfl | rfl
      · exact absurd hf (by decide)
      · exact absurd hf (by decide)
      · rfl
    · show List.Chain' (· ≤ ·) ([0, 1/10] : List ℚ)
      exact List.chain'_cons.mpr ⟨by norm_num, List.chain'_singleton _⟩
  | execFail k =>
    simp only [executeTaskTrace]
    have hTmem : ∀ p ∈ (execUpdates agents).take k,
        3/10 ≤ p.2 ∧ p.2 ≤ 7/10 ∧ p.1 = AgentStatus.executing :=
      fun p hp => hvalE p (List.take_subset k _ hp)
    refine ⟨?_, ?_, ?_⟩
    · intro p hp h1
      rcases mem_three_append hp with hA | hT | hF
      · simp only [List.mem_cons, List.not_mem_nil, or_false] at hA
        rcases hA with rfl | rfl | rfl <;> norm_num at h1
      · have := (hTmem p hT).2.1
        rw [h1] at this
        norm_num at this
      · simp only [List.mem_cons, List.not_mem_nil, or_false] at hF
        subst hF
        norm_num at h1
    · intro p hp hf
      rcases mem_three_append hp with hA | hT | hF
      · simp only [List.mem_cons, List.not_mem_nil, or_false] at hA
        rcases hA with rfl | rfl | rfl <;> exact absurd hf (by decide)
      · have := (hTmem p hT).2.2
        rw [hf] at this
        exact absurd this (by decide)
      · simp only [List.mem_cons, List.not_mem_nil, or_false] at hF
        subst hF
        rfl
    · have hAT : ∀ p ∈ ([(AgentStatus.planning, (0:ℚ)), (.planning, 1/10),
          (.executing, 3/10)] ++ (execUpdates agents).take k), notFailed p = true := by
        intro p hp
        rcases List.mem_append.mp hp with hA | hT
        · simp only [List.mem_cons, List.not_mem_nil, or_false] at hA
          rcases hA with rfl | rfl | rfl <;> rfl
        · have := (hTmem p hT).2.2
          simp [notFailed, this]
      rw [takeWhile_append_all _ _ _ hAT,
        show ([(AgentStatus.failed, (0:ℚ))].takeWhile notFailed) = [] from rfl,
        List.append_nil, List.map_append]
      refine List.chain'_append.mpr ⟨hchainA, ?_, ?_⟩
      · rw [List.map_take]
        exact chain_take hchainE k
      · intro x hx y hy
        have hxle : x ≤ 3/10 := by
          have := List.mem_of_mem_getLast? hx
          simp only [List.map_cons, List.map_nil, List.mem_cons,
            List.not_mem_nil, or_false] at this
          rcases this with rfl | rfl | rfl <;> norm_num
        have hy3 : 3/10 ≤ y := by
          have hmem := List.mem_of_mem_head? hy
          rw [List.map_take] at hmem
          have hmem2 : y ∈ (execUpdates agents).map Prod.snd :=
            List.take_subset k _ hmem
          obtain ⟨p, hp, rfl⟩ := List.mem_map.mp hmem2
          exact (hvalE p hp).1
        linarith
  | resultFail =>
    simp only [executeTaskTrace]
    refine ⟨?_, ?_, ?_⟩
    · intro p hp h1
      rcases mem_three_append hp with hA | hE | hB
      · simp only [List.mem_cons, List.not_mem_nil, or_false] at hA
        rcases hA with rfl | rfl | rfl <;> norm_num at h1
      · have := (hvalE p hE).2.1
        rw [h1] at this
        norm_num at this
      · simp only [List.mem_cons, List.not_mem_nil, or_false] at hB
        rcases hB with rfl | rfl <;> norm_num at h1
    · intro p hp hf
      rcases mem_three_append hp with hA | hE | hB
      · simp only [List.mem_cons, List.not_mem_nil, or_false] at hA
        rcases hA with rfl | rfl | rfl <;> exact absurd hf (by decide)
      · have := (hvalE p hE).2.2
        rw [hf] at this
        exact absurd this (by decide)
      · simp only [List.mem_cons, List.not_mem_nil, or_false] at hB
        rcases hB with rfl | rfl
        · exact absurd hf (by decide)
        · rfl
    · have hAE : ∀ p ∈ ([(AgentStatus.planning, (0:ℚ)), (.planning, 1/10),
          (.executing, 3/10)] ++ execUpdates agents), notFailed p = true := by
        intro p hp
        rcases List.mem_append.mp hp with hA | hE
        · simp only [List.mem_cons, List.not_mem_nil, or_false] at hA
          rcases hA with rfl | rfl | rfl <;> rfl
        · have := (hvalE p hE).2.2
          simp [notFailed, this]
      rw [takeWhile_append_all _ _ _ hAE,
        show (([(AgentStatus.executing, (8:ℚ)/10),
          (.failed, 0)]).takeWhile notFailed) =
          [(AgentStatus.executing, (8:ℚ)/10)] from rfl,
        List.map_append, List.map_append]
      refine List.chain'_append.mpr ⟨?_, List.chain'_singleton _, ?_⟩
      · refine List.chain'_append.mpr ⟨hchainA, hchainE, ?_⟩
        intro x hx y hy
        have hxle : x ≤ 3/10 := by
          have := List.mem_of_mem_getLast? hx
          simp only [List.map_cons, List.map_nil, List.mem_cons,
            List.not_mem_nil, or_false] at this
          rcases this with rfl | rfl | rfl <;> norm_num
        have hy3 : 3/10 ≤ y := by
          have hmem := List.mem_of_mem_head? hy
          obtain ⟨p, hp, rfl⟩ := List.mem_map.mp hmem
          exact (hvalE p hp).1
        linarith
      · intro x hx y hy
        have hyv : y = 8/10 := by
          have := List.mem_of_mem_head? hy
          simp only [List.map_cons, List.map_nil, List.mem_cons,
            List.not_mem_nil, or_false] at this
          rw [this]
        have hxle : x ≤ 8/10 := by
          have hmem := List.mem_of_mem_getLast? hx
          rcases List.mem_append.mp hmem with hA | hE
          · simp only [List.map_cons, List.map_nil, List.mem_cons,
              List.not_mem_nil, or_false] at hA
            rcases hA with rfl | rfl | rfl <;> norm_num
          · obtain ⟨p, hp, rfl⟩ := List.mem_map.mp hE
            have := (hvalE p hp).2.1
            linarith
        rw [hyv]
        exact hxle
  | success =>
    simp only [executeTaskTrace]
    refine ⟨?_, ?_, ?_⟩
    · intro p hp h1
      rcases mem_three_append hp with hA | hE | hB
      · simp only [List.mem_cons, List.not_mem_nil, or_false] at hA
        rcases hA with rfl | rfl | rfl <;> norm_num at h1
      · have := (hvalE p hE).2.1
        rw [h1] at this
        norm_num at this
      · simp only [List.mem_cons, List.not_mem_nil, or_false] at hB
        rcases hB with rfl | rfl
        · norm_num at h1
        · rfl
    · intro p hp hf
      rcases mem_three_append hp with hA | hE | hB
      · simp only [List.mem_cons, List.not_mem_nil, or_false] at hA
        rcases hA with rfl | rfl | rfl <;> exact absurd hf (by decide)
      · have := (hvalE p hE).2.2
        rw [hf] at this
        exact absurd this (by decide)
      · simp only [List.mem_cons, List.not_mem_nil, or_false] at hB
        rcases hB with rfl | rfl <;> exact absurd hf (by decide)
    · have hAll : ∀ p ∈ ([(AgentStatus.planning, (0:ℚ)), (.planning, 1/10),
          (.executing, 3/10)] ++ execUpdates agents ++
          [(AgentStatus.executing, (8:ℚ)/10), (.completed, 1)]),
          notFailed p = true := by
        intro p hp
        rcases mem_three_append hp with hA | hE | hB
        · simp only [List.mem_cons, List.not_mem_nil, or_false] at hA
          rcases hA with rfl | rfl | rfl <;> rfl
        · have := (hvalE p hE).2.2
          simp [notFailed, this]
        · simp only [List.mem_cons, List.not_mem_nil, or_false] at hB
          rcases hB with rfl | rfl <;> rfl
      rw [takeWhile_all _ _ hAll, List.map_append, List.map_append]
      have hchainB : List.Chain' (· ≤ ·) ([8/10, 1] : List ℚ) :=
        List.chain'_cons.mpr ⟨by norm_num, List.chain'_singleton _⟩
      refine List.chain'_append.mpr ⟨?_, hchainB, ?_⟩
      · refine List.chain'_append.mpr ⟨hchainA, hchainE, ?_⟩
        intro x hx y hy
        have hxle : x ≤ 3/10 := by
          have := List.mem_of_mem_getLast? hx
          simp only [List.map_cons, List.map_nil, List.mem_cons,
            List.not_mem_nil, or_false] at this
          rcases this with rfl | rfl | rfl <;> norm_num
        have hy3 : 3/10 ≤ y := by
          have hmem := List.mem_of_mem_head? hy
          obtain ⟨p, hp, rfl⟩ := List.mem_map.mp hmem
          exact (hvalE p hp).1
        linarith
      · intro x hx y hy
        have hyge : 8/10 ≤ y := by
          have := List.mem_of_mem_head? hy
          simp only [List.map_cons, List.map_nil, List.mem_cons,
            List.not_mem_nil, or_false] at this
          rcases this with rfl | rfl <;> norm_num
        have hxle : x ≤ 8/10 := by
          have hmem := List.mem_of_mem_getLast? hx
          rcases List.mem_append.mp hmem with hA | hE
          · simp only [List.map_cons, List.map_nil, List.mem_cons,
              List.not_mem_nil, or_false] at hA
            rcases hA with rfl | rfl | rfl <;> norm_num
          · obtain ⟨p, hp, rfl⟩ := List.mem_map.mp hE
            have := (hvalE p hp).2.1
            linarith
        linarith

/-- Witness for the amended C2 theorem: on the concrete planning-failure path
the Failed write carries progress 0, and on the concrete success path the
whole update sequence is non-decreasing. -/
theorem progress_updates_amended_witness :
    ((AgentStatus.failed, (0:ℚ)) ∈ executeTaskTrace ["research"] ExecOutcome.planFail ∧
      ((AgentStatus.failed, (0:ℚ)).2 = 0)) ∧
    List.Chain' (· ≤ ·)
      (((executeTaskTrace ["research"] ExecOutcome.success).takeWhile notFailed).map
        Prod.snd) :=
  ⟨⟨by decide,
    (progress_updates_amended ["research"] ExecOutcome.planFail).2.1
      (AgentStatus.failed, 0) (by decide) rfl⟩,
   (progress_updates_amended ["research"] ExecOutcome.success).2.2⟩

/-- C6 counterexample: with two selected agents the progress written before
the second agent is `0.3 + 1 * 0.4 / 2 = 0.5`, not the claimed
`0.3 + (1 / 2) * 0.5 = 0.55`. -/
theorem exec_progress_formula_cx :
    (execUpdates ["research", "analysis"]).map Prod.snd = [3/10, 1/2] ∧
    ((1:ℚ)/2 ≠ 3/10 + ((1:ℚ)/2) * (5/10)) := by
  constructor
  · show [execVal 2 0, execVal 2 1] = [3/10, 1/2]
    norm_num [execVal]
  · norm_num

theorem execUpdatesAux_allKnown_get (total : ℕ) :
    ∀ (rest : List String) (i0 : ℕ), (∀ a ∈ rest, knownAgent a = true) →
      ∀ j, j < rest.length →
        (execUpdatesAux total i0 rest).get? j =
          some (AgentStatus.executing, execVal total (i0 + j)) := by
  intro rest
  induction rest with
  | nil =>
    intro i0 _ j hj
    simp at hj
  | cons a t ih =>
    intro i0 h j hj
    have ha : knownAgent a = true := h a (List.mem_cons_self a t)
    simp only [execUpdatesAux, ha, if_true]
    cases j with
    | zero => simp
    | succ j' =>
      have hrec := ih (i0 + 1) (fun b hb => h b (List.mem_cons_of_mem a hb)) j'
        (by simp only [List.length_cons] at hj; omega)
      have harith : i0 + 1 + j' = i0 + (j' + 1) := by omega
      rw [List.get?_cons_succ, hrec, harith]

/-- C6 amended: when every selected agent name is known, the progress written
immediately before invoking the agent at zero-based index `i` equals
`0.3 + i * 0.4 / totalAgents` — the factor is 0.4, not the claimed 0.5. -/
theorem exec_progress_formula_amended (agents : List String)
    (h : ∀ a ∈ agents, knownAgent a = true) (i : ℕ) (hi : i < agents.length) :
    (execUpdates agents).get? i =
      some (AgentStatus.executing,
        3/10 + (i : ℚ) * (4/10) / (agents.length : ℚ)) := by
  have := execUpdatesAux_allKnown_get agents.length agents 0 h i hi
  simpa [execUpdates, execVal] using this

/-- Witness for the amended C6 theorem at the two-agent plan
`["research", "analysis"]` and index 1. -/
theorem exec_progress_formula_amended_witness :
    (∀ a ∈ (["research", "analysis"] : List String), knownAgent a = true) ∧
    1 < (["research", "analysis"] : List String).length ∧
    (execUpdates ["research", "analysis"]).get? 1 =
      some (AgentStatus.executing,
        3/10 + ((1:ℕ) : ℚ) * (4/10) /
          (((["research", "analysis"] : List String).length : ℕ) : ℚ)) :=
  ⟨by decide, by decide,
   exec_progress_formula_amended ["research", "analysis"] (by decide) 1 (by decide)⟩

/-! ## Result aggregation (`_aggregate_results_enhanced`, orchestrator
lines 340-406) -/

/-- The values flowing into the execution-record literal that
`_execute_with_intelligent_agents` appends at lines 217-223 and extends with
the `validation` dict at line 241: `agent` is the loop's agent name, `result`
the inner agent-result dict, `confidence` the top-level confidence after the
0.5 validation penalty of line 238 when it applied. -/
structure ExecRecordData where
  agent : String
  result : List (String × PyVal)
  timestamp : String
  tools_used : List String
  confidence : ℚ
  validation : List (String × PyVal)

/-- The top-level execution-record dict exactly as built at lines 217-223 and
241: its keys are `agent`, `result`, `timestamp`, `tools_used`, `confidence`
and `validation` — in particular it never carries an `error` or an
`agent_name` key (those live inside the nested `result` dict). -/
def mkExecutionRecord (r : ExecRecordData) : List (String × PyVal) :=
  [("agent", PyVal.str r.agent),
   ("result", PyVal.dict r.result),
   ("timestamp", PyVal.str r.timestamp),
   ("tools_used", PyVal.list (r.tools_used.map PyVal.str)),
   ("confidence", PyVal.num r.confidence),
   ("validation", PyVal.dict r.validation)]

/-- The shapes of `_aggregate_results_enhanced`'s return value the claims
consult: the failed-branch dict of lines 348-352 (carrying its `reason`
string), the aggregated output with its `confidence_scores` dict
(lines 364-381) and `overall_confidence` (line 395), and the `except`
handler's status-`error` dict of lines 402-406 (carrying its `summary`
string). -/
inductive AggResult where
  | failed (reason : String)
  | aggregated (confidence_scores : List (String × ℚ)) (overall_confidence : ℚ)
  | errorResult (summary : String)
  deriving DecidableEq

/-- One `confidence_scores` update of the loop at lines 365-379:
`confidence_scores[result.get("agent_name", "unknown")] =
result.get("confidence", 0.5)`. -/
def scoreStep (m : List (String × ℚ)) (r : List (String × PyVal)) :
    List (String × ℚ) :=
  assocSet m (dictGetStr r "agent_name" "unknown") (dictGetNum r "confidence" (1/2))

/-- The method names the `CoordinatorAgent` class defines
(`agents/coordinator_agent.py`). -/
def coordinatorAgentMethods : List String :=
  ["__init__", "execute", "_analyze_requirements", "_parse_requirements",
   "_generate_fallback_requirements", "_create_execution_plan",
   "_parse_execution_plan", "_generate_fallback_execution_plan",
   "_coordinate_execution", "_execute_phase",
   "_generate_coordination_summary", "_perform_quality_assurance"]

/-- The method names the base class `BaseAgent` defines
(`agents/base_agent.py`). -/
def baseAgentMethods : List String :=
  ["__init__", "execute", "execute_with_tools", "can_handle",
   "get_capability_score", "add_to_history", "get_performance_metrics",
   "get_context_summary", "use_tool", "validate_task",
   "generate_clarifying_questions"]

/-- `self.agents.get("coordinator")` at line 384 is truthy:
`_initialize_agents` (lines 48-56) always registers the coordinator. -/
def coordinatorRegistered : Bool :=
  agentNames.contains "coordinator"

/-- Does the coordinator instance expose `synthesize_results`?  The attribute
access at line 386 succeeds only if the name is defined on `CoordinatorAgent`
or its base class; it is defined on neither — its only occurrence in the
repository is the call site — so the access raises `AttributeError`. -/
def coordinator_has_synthesize_results : Bool :=
  (coordinatorAgentMethods ++ baseAgentMethods).contains "synthesize_results"

/-- The `try` body of `_aggregate_results_enhanced` (lines 343-398): filter
survivors by the top-level `error` key and return the reason-carrying failed
dict when none survive (lines 345-352); otherwise build the
`confidence_scores` dict (lines 364-381), then synthesize — when a
coordinator is registered, `coordinator.synthesize_results` (line 386)
raises `AttributeError` because no agent class defines the method; only a
non-raising synthesis would reach `overall_confidence` at line 395.  An
`Except.error` models an exception reaching the `except` handler of
line 400. -/
def aggregateBody (execution_results : List (List (String × PyVal))) :
    Except String AggResult :=
  let successful := execution_results.filter (fun r => !(dictHasKey r "error"))
  if successful.isEmpty then
    Except.ok (AggResult.failed "No successful agent executions")
  else
    let scores := successful.foldl scoreStep []
    let overall := ((scores.map Prod.snd).sum) / ((scores.length : ℕ) : ℚ)
    if coordinatorRegistered then
      if coordinator_has_synthesize_results then
        Except.ok (AggResult.aggregated scores overall)
      else
        Except.error "'CoordinatorAgent' object has no attribute 'synthesize_results'"
    else
      Except.ok (AggResult.aggregated scores overall)

/-- `_aggregate_results_enhanced` (lines 340-406): the `except` handler of
lines 400-406 turns any exception of the body into the status-`error`
dict. -/
def aggregate_results_enhanced (execution_results : List (List (String × PyVal))) :
    AggResult :=
  match aggregateBody execution_results with
  | Except.ok r => r
  | Except.error _ => AggResult.errorResult "Failed to aggregate agent results"

theorem mkExecutionRecord_no_error (r : ExecRecordData) :
    dictHasKey (mkExecutionRecord r) "error" = false := rfl

theorem mkExecutionRecord_agent_name (r : ExecRecordData) :
    dictGetStr (mkExecutionRecord r) "agent_name" "unknown" = "unknown" := rfl

theorem mkExecutionRecord_confidence (r : ExecRecordData) (d : ℚ) :
    dictGetNum (mkExecutionRecord r) "confidence" d = r.confidence := rfl

theorem aggregate_nonempty_error (r0 : ExecRecordData) (rs : List ExecRecordData) :
    aggregate_results_enhanced ((r0 :: rs).map mkExecutionRecord) =
      AggResult.errorResult "Failed to aggregate agent results" := by
  have hfilter : ((r0 :: rs).map mkExecutionRecord).filter
      (fun r => !(dictHasKey r "error")) = (r0 :: rs).map mkExecutionRecord := by
    rw [List.filter_eq_self]
    intro a ha
    obtain ⟨r, _, rfl⟩ := List.mem_map.mp ha
    rw [mkExecutionRecord_no_error]
    rfl
  have hreg : coordinatorRegistered = true := rfl
  have hsyn : coordinator_has_synthesize_results = false := rfl
  have hbody : aggregateBody ((r0 :: rs).map mkExecutionRecord) =
      Except.error "'CoordinatorAgent' object has no attribute 'synthesize_results'" := by
    rw [aggregateBody]
    simp only [hfilter]
    simp [List.map_cons, List.isEmpty_cons, hreg, hsyn]
  rw [aggregate_results_enhanced, hbody]

/-- A record whose execution errored: the error marker sits inside the nested
`result` dict (as built by `_execute_agent_with_tools`, lines 281-288), while
the top level keeps the fixed six keys. -/
def errorRecordData : ExecRecordData :=
  { agent := "research",
    result := [("error", PyVal.str "agent crashed"),
               ("agent_name", PyVal.str "research"),
               ("tools_used", PyVal.list []),
               ("confidence", PyVal.num 0)],
    timestamp := "t0",
    tools_used := [],
    confidence := 0,
    validation := [("valid", PyVal.boolV false),
                   ("reason", PyVal.str "No output generated"),
                   ("confidence", PyVal.str "low")] }

/-- C3 counterexample: an execution whose only record carries a hard error is
not detected by the `"error" not in r` filter (the error key is nested in the
inner result dict), so the reason "No successful agent executions" is never
recorded for it — aggregation instead hits the missing
`coordinator.synthesize_results` and returns the status-`error` dict; and the
run that gets past planning and execution still ends with the
`(Failed, 0.0)` registry write (the `TaskResult` construction raises), not
with the claimed Failed-with-reason outcome and not with Completed. -/
theorem aggregation_error_records_survive_cx :
    aggregate_results_enhanced [mkExecutionRecord errorRecordData] =
      AggResult.errorResult "Failed to aggregate agent results" ∧
    (aggregate_results_enhanced [mkExecutionRecord errorRecordData] ≠
      AggResult.failed "No successful agent executions") ∧
    (executeTaskTrace ["research"] ExecOutcome.resultFail).getLast? =
      some (AgentStatus.failed, 0) := by
  refine ⟨?_, ?_, ?_⟩
  · rfl
  · intro h
    rw [show aggregate_results_enhanced [mkExecutionRecord errorRecordData] =
        AggResult.errorResult "Failed to aggregate agent results" from rfl] at h
    exact absurd h (by simp)
  · rfl

theorem foldl_scoreStep_unknown (rs : List ExecRecordData) :
    ∀ v : ℚ, (rs.map mkExecutionRecord).foldl scoreStep [("unknown", v)] =
      [("unknown", (rs.map ExecRecordData.confidence).getLastD v)] := by
  induction rs with
  | nil => intro v; rfl
  | cons r rs ih =>
    intro v
    have hstep : scoreStep [("unknown", v)] (mkExecutionRecord r) =
        [("unknown", r.confidence)] := by
      rw [scoreStep, mkExecutionRecord_agent_name, mkExecutionRecord_confidence]
      rfl
    simp only [List.map_cons, List.foldl_cons, hstep, ih, List.getLastD_cons]

/-- C3 amended: the aggregation returns its reason-carrying failed dict
exactly when the execution phase produced no records at all — records whose
error sits inside the nested result dict all survive the top-level filter;
with one or more records the synthesis step raises (`synthesize_results`
exists on no agent class) and the status-`error` dict is returned, so the
reason "No successful agent executions" is never recorded for an all-errors
execution.  The task does end with status Failed and progress 0.0 rather
than Completed, but through `execute_task`'s exception handler — the
`TaskResult` construction raises for the missing required
`overall_confidence` field — not through the aggregation reason. -/
theorem aggregation_failed_only_when_no_records (rs : List ExecRecordData)
    (agents : List String) :
    (aggregate_results_enhanced (rs.map mkExecutionRecord) =
      AggResult.failed "No successful agent executions" ↔ rs = []) ∧
    (rs ≠ [] → aggregate_results_enhanced (rs.map mkExecutionRecord) =
      AggResult.errorResult "Failed to aggregate agent results") ∧
    (executeTaskTrace agents ExecOutcome.resultFail).getLast? =
      some (AgentStatus.failed, 0) := by
  refine ⟨?_, ?_, ?_⟩
  · cases rs with
    | nil => exact ⟨fun _ => rfl, fun _ => rfl⟩
    | cons r0 rs' =>
      constructor
      · intro h
        rw [aggregate_nonempty_error r0 rs'] at h
        exact absurd h (by simp)
      · intro h
        exact absurd h (by simp)
  · intro hne
    cases rs with
    | nil => exact absurd rfl hne
    | cons r0 rs' => exact aggregate_nonempty_error r0 rs'
  · rw [executeTaskTrace]
    rw [List.getLast?_append]
    rfl

/-- Witness for the amended C3 theorem: with the single error-carrying record
the aggregation returns the status-`error` dict, not the failed-with-reason
result; with no records it does return that result. -/
theorem aggregation_failed_only_when_no_records_witness :
    (([errorRecordData] : List ExecRecordData) ≠ []) ∧
    aggregate_results_enhanced ([errorRecordData].map mkExecutionRecord) =
      AggResult.errorResult "Failed to aggregate agent results" ∧
    aggregate_results_enhanced (([] : List ExecRecordData).map mkExecutionRecord) =
      AggResult.failed "No successful agent executions" :=
  ⟨by simp,
   (aggregation_failed_only_when_no_records [errorRecordData] ["research"]).2.1
     (by simp),
   (aggregation_failed_only_when_no_records [] ["research"]).1.mpr rfl⟩

/-- Two records with distinct confidences, used to refute the
arithmetic-mean claim. -/
def recordDataA : ExecRecordData :=
  { agent := "research",
    result := [("agent_name", PyVal.str "research"),
               ("output", PyVal.str "found two sources"),
               ("tools_used", PyVal.list [])],
    timestamp := "t1",
    tools_used := [],
    confidence := 2/5,
    validation := [("valid", PyVal.boolV true)] }

def recordDataB : ExecRecordData :=
  { agent := "analysis",
    result := [("agent_name", PyVal.str "analysis"),
               ("output", PyVal.str "upward trend"),
               ("tools_used", PyVal.list [])],
    timestamp := "t2",
    tools_used := [],
    confidence := 4/5,
    validation := [("valid", PyVal.boolV true)] }

/-- C4 counterexample: with two records of confidences 0.4 and 0.8 the
aggregation returns the status-`error` dict — no `overall_confidence` equal
to the mean 0.6 (or to anything) is produced, because the synthesis step
raises before line 395; and the `confidence_scores` dict built before the
raise holds both confidences under the single key "unknown" (the records
carry `agent`, not `agent_name`), so even the line-395 average of that dict
would be 0.8, not the mean 0.6. -/
theorem overall_confidence_not_mean_cx :
    aggregate_results_enhanced
        [mkExecutionRecord recordDataA, mkExecutionRecord recordDataB] =
      AggResult.errorResult "Failed to aggregate agent results" ∧
    [mkExecutionRecord recordDataA, mkExecutionRecord recordDataB].foldl
        scoreStep [] = [("unknown", 4/5)] ∧
    ((4:ℚ)/5 ≠ (2/5 + 4/5) / 2) := by
  refine ⟨rfl, rfl, by norm_num⟩

/-- C4 amended: aggregation never computes an overall confidence — for every
non-empty record list the `coordinator.synthesize_results` access raises and
the status-`error` dict, which carries no `overall_confidence`, is returned
(no task reaches Completed either, the `TaskResult` construction failing
first); the `confidence_scores` dict built before the raise (lines 364-381)
holds the single key "unknown" with the last record's confidence, because
the records carry `agent` rather than `agent_name` — so the line-395
average, were it ever reached, would be the last record's confidence and
not the per-agent mean. -/
theorem overall_confidence_never_computed (r0 : ExecRecordData)
    (rs : List ExecRecordData) :
    aggregate_results_enhanced ((r0 :: rs).map mkExecutionRecord) =
      AggResult.errorResult "Failed to aggregate agent results" ∧
    ((r0 :: rs).map mkExecutionRecord).foldl scoreStep [] =
      [("unknown", ((r0 :: rs).map ExecRecordData.confidence).getLastD 0)] := by
  constructor
  · exact aggregate_nonempty_error r0 rs
  · have hstep0 : scoreStep [] (mkExecutionRecord r0) =
        [("unknown", r0.confidence)] := by
      rw [scoreStep, mkExecutionRecord_agent_name, mkExecutionRecord_confidence]
      rfl
    simp only [List.map_cons, List.foldl_cons, hstep0,
      foldl_scoreStep_unknown rs r0.confidence, List.getLastD_cons]

/-! ## Context manager storage (`context_manager.py` lines 11-38 and
304-327) -/

/-- The value stored in `self.agent_outputs[agent_name]` by
`add_agent_output` (lines 21-26). -/
structure AgentOutputEntry where
  output : String
  metadata : List (String × PyVal)
  timestampSec : ℚ
  context_id : String

/-- The entry appended to `self.context_history` (lines 29-34). -/
structure HistoryEntry where
  agent : String
  timestampSec : ℚ
  output_length : ℕ
  has_metadata : Bool

/-- The context manager's stored state: `agent_outputs` is a dict keyed by
agent name, `context_history` an ordered log. -/
structure ContextManagerState where
  agent_outputs : List (String × AgentOutputEntry)
  context_history : List HistoryEntry

/-- `add_agent_output` (lines 17-38): store the entry under the agent's key
(dict assignment — replacing any previous entry for that agent), append one
history record, and drop the oldest history record when the log exceeds 50.
`nowSec` is `datetime.now()` in seconds, `nowFmt` its formatted form used in
the `context_id`; a `metadata=None` call is passed as `[]`. -/
def add_agent_output (st : ContextManagerState) (agent_name output : String)
    (metadata : List (String × PyVal)) (nowSec : ℚ) (nowFmt : String) :
    ContextManagerState :=
  let entry : AgentOutputEntry :=
    { output := output, metadata := metadata, timestampSec := nowSec,
      context_id := agent_name ++ "_" ++ nowFmt }
  let hist := st.context_history ++
    [{ agent := agent_name, timestampSec := nowSec,
       output_length := output.length, has_metadata := !metadata.isEmpty }]
  { agent_outputs := assocSet st.agent_outputs agent_name entry,
    context_history := if 50 < hist.length then hist.drop 1 else hist }

/-- `clear_old_context` (lines 304-327): collect the agents whose stored
output is older than the cutoff and delete those keys, and keep only history
records at or after the cutoff. -/
def clear_old_context (st : ContextManagerState) (max_age_hours : ℚ)
    (nowSec : ℚ) : ContextManagerState :=
  let cutoff := nowSec - max_age_hours * 3600
  let agents_to_remove :=
    (st.agent_outputs.filter (fun p => p.2.timestampSec < cutoff)).map Prod.fst
  { agent_outputs :=
      st.agent_outputs.filter (fun p => !(agents_to_remove.contains p.1)),
    context_history :=
      st.context_history.filter (fun c => cutoff ≤ c.timestampSec) }

theorem assocFind_map_replace_self {β : Type} (k : String) (v : β) :
    ∀ m : List (String × β), m.any (fun p => p.1 = k) = true →
      assocFind (m.map (fun p => if p.1 = k then (k, v) else p)) k = some v := by
  intro m
  induction m with
  | nil => intro h; simp at h
  | cons q m ih =>
    intro h
    simp only [List.map_cons]
    by_cases hq : q.1 = k
    · unfold assocFind
      rw [if_pos hq, List.find?_cons_of_pos _ (by simp)]
      rfl
    · rw [if_neg hq]
      unfold assocFind
      rw [List.find?_cons_of_neg _ (by simpa using hq)]
      have hm : m.any (fun p => p.1 = k) = true := by
        rcases List.any_eq_true.mp h with ⟨x, hx, hpx⟩
        rcases List.mem_cons.mp hx with rfl | hx2
        · exact absurd (of_decide_eq_true hpx) hq
        · exact List.any_eq_true.mpr ⟨x, hx2, hpx⟩
      have := ih hm
      unfold assocFind at this
      exact this

theorem assocFind_map_replace_ne {β : Type} (k b : String) (v : β) (hne : b ≠ k) :
    ∀ m : List (String × β),
      assocFind (m.map (fun p => if p.1 = k then (k, v) else p)) b =
        assocFind m b := by
  intro m
  induction m with
  | nil => rfl
  | cons q m ih =>
    simp only [List.map_cons]
    by_cases hq : q.1 = k
    · unfold assocFind
      rw [if_pos hq, List.find?_cons_of_neg _ (by simpa using Ne.symm hne),
        List.find?_cons_of_neg _ (by simp [hq]; exact Ne.symm hne)]
      have := ih
      unfold assocFind at this
      exact this
    · rw [if_neg hq]
      unfold assocFind
      by_cases hqb : q.1 = b
      · rw [List.find?_cons_of_pos _ (by simpa using hqb),
          List.find?_cons_of_pos _ (by simpa using hqb)]
      · rw [List.find?_cons_of_neg _ (by simpa using hqb),
          List.find?_cons_of_neg _ (by simpa using hqb)]
        have := ih
        unfold assocFind at this
        exact this

theorem assocFind_set_self {β : Type} (m : List (String × β)) (k : String) (v : β) :
    assocFind (assocSet m k v) k = some v := by
  unfold assocSet
  split
  · rename_i h
    exact assocFind_map_replace_self k v m h
  · rename_i h
    unfold assocFind
    rw [List.find?_append]
    have hnone : m.find? (fun p => p.1 = k) = none :=
      List.find?_eq_none.mpr
        (fun x hx hdx => h (List.any_eq_true.mpr ⟨x, hx, hdx⟩))
    rw [hnone, List.find?_cons_of_pos _ (by simp)]
    rfl

theorem assocFind_set_ne {β : Type} (m : List (String × β)) (k b : String) (v : β)
    (hne : b ≠ k) : assocFind (assocSet m k v) b = assocFind m b := by
  unfold assocSet
  split
  · exact assocFind_map_replace_ne k b v hne m
  · unfold assocFind
    rw [List.find?_append,
      List.find?_cons_of_neg _ (by simpa using Ne.symm hne)]
    simp

/-- The empty context-manager state (`__init__`, lines 11-15). -/
def cmEmpty : ContextManagerState :=
  { agent_outputs := [], context_history := [] }

/-- One stored research output. -/
def cmStateOne : ContextManagerState :=
  add_agent_output cmEmpty "research" "first finding" [] 100 "ts1"

/-- A second output from the same agent stored afterwards. -/
def cmStateTwo : ContextManagerState :=
  add_agent_output cmStateOne "research" "second finding" [] 200 "ts2"

/-- C7 counterexample: a second output from the same agent does not coexist
with the first — the dict assignment replaces it, leaving a single entry for
"research" holding only the second output (the history log keeps both
records, but the stored entry itself is overwritten). -/
theorem same_agent_output_replaced_cx :
    cmStateTwo.agent_outputs =
      [("research",
        { output := "second finding", metadata := [], timestampSec := 200,
          context_id := "research_ts2" })] ∧
    assocFind cmStateTwo.agent_outputs "research" =
      some { output := "second finding", metadata := [], timestampSec := 200,
             context_id := "research_ts2" } ∧
    cmStateTwo.context_history.length = 2 :=
  ⟨rfl, rfl, rfl⟩

/-- C7 amended: storing an output replaces the storing agent's previous entry
(the new entry is what the agent's key maps to afterwards) while every other
agent's stored entry is untouched; and the retention sweep removes exactly
the entries older than the cutoff (for the dict's unique keys), so removal
happens only there, by age. -/
theorem agent_outputs_update_amended (st : ContextManagerState)
    (agent_name output : String) (metadata : List (String × PyVal))
    (nowSec : ℚ) (nowFmt : String) :
    assocFind (add_agent_output st agent_name output metadata nowSec nowFmt).agent_outputs
        agent_name =
      some { output := output, metadata := metadata, timestampSec := nowSec,
             context_id := agent_name ++ "_" ++ nowFmt } ∧
    (∀ b, b ≠ agent_name →
      assocFind (add_agent_output st agent_name output metadata nowSec nowFmt).agent_outputs
          b =
        assocFind st.agent_outputs b) ∧
    (∀ maxh now2 : ℚ, (st.agent_outputs.map Prod.fst).Nodup →
      (clear_old_context st maxh now2).agent_outputs =
        st.agent_outputs.filter
          (fun p => now2 - maxh * 3600 ≤ p.2.timestampSec)) := by
  refine ⟨?_, ?_, ?_⟩
  · exact assocFind_set_self _ _ _
  · intro b hb
    exact assocFind_set_ne _ _ _ _ hb
  · intro maxh now2 hnodup
    unfold clear_old_context
    apply List.filter_congr
    intro p hp
    by_cases hlt : p.2.timestampSec < now2 - maxh * 3600
    · have hmem : p.1 ∈ (st.agent_outputs.filter
          (fun q => q.2.timestampSec < now2 - maxh * 3600)).map Prod.fst :=
        List.mem_map.mpr ⟨p, List.mem_filter.mpr ⟨hp, by simpa using hlt⟩, rfl⟩
      simp [hmem, not_le.mpr hlt]
    · have hge : now2 - maxh * 3600 ≤ p.2.timestampSec := not_lt.mp hlt
      have hnmem : p.1 ∉ (st.agent_outputs.filter
          (fun q => q.2.timestampSec < now2 - maxh * 3600)).map Prod.fst := by
        intro hmem
        obtain ⟨q, hq, hqe⟩ := List.mem_map.mp hmem
        have hqparts := List.mem_filter.mp hq
        have hqlt : q.2.timestampSec < now2 - maxh * 3600 := by
          simpa using hqparts.2
        have hqp : q = p := List.inj_on_of_nodup_map hnodup hqparts.1 hp hqe
        rw [hqp] at hqlt
        exact hlt hqlt
      simp [hnmem, hge]

/-- Witness for the amended C7 theorem: storing an analysis output leaves the
stored research entry unchanged, and a sweep on the one-entry state removes
exactly the aged-out entries. -/
theorem agent_outputs_update_amended_witness :
    assocFind (add_agent_output cmStateOne "analysis" "trend up" [] 300 "ts3").agent_outputs
        "research" = assocFind cmStateOne.agent_outputs "research" ∧
    (clear_old_context cmStateOne 24 100000).agent_outputs =
      cmStateOne.agent_outputs.filter
        (fun p => 100000 - 24 * 3600 ≤ p.2.timestampSec) :=
  ⟨(agent_outputs_update_amended cmStateOne "analysis" "trend up" [] 300 "ts3").2.1
      "research" (by decide),
   (agent_outputs_update_amended cmStateOne "analysis" "trend up" [] 300 "ts3").2.2
      24 100000 (by decide)⟩

/-! ## Output validation (`_validate_agent_output`, orchestrator
lines 290-338, and `_format_context`, lines 457-472) -/

/-- Python `s[:n]`. -/
def pyTake (s : String) (n : ℕ) : String :=
  ⟨s.data.take n⟩

/-- The `SearchResult` items of the task context (`schemas.py`): only the
fields the validator touches. -/
structure SearchResult where
  document_id : String
  content : String

/-- `_format_context` (lines 457-472): empty for a missing or empty context,
otherwise the first three results rendered as
`Context <i+1>: <content[:300]>...` joined by blank lines. -/
def format_context (context : Option (List SearchResult)) : String :=
  match context with
  | none => ""
  | some [] => ""
  | some l =>
    String.intercalate "\n\n"
      ((l.take 3).enum.map
        (fun p => "Context " ++ toString (p.1 + 1) ++ ": " ++
          pyTake p.2.content 300 ++ "..."))

/-- The verdict dict `{valid, reason, confidence}` returned by
`_validate_agent_output`. -/
structure ValidationVerdict where
  valid : Bool
  reason : String
  confidence : String
  deriving DecidableEq, Repr

/-- The outcome of the `execute_tool("fact_checker", ...)` call as consumed
by the validator: `success` is `fact_check_result["success"]`, `confidence`
is `fact_check_result["result"].get("confidence", 0.5)`.  The tool wraps an
external completion-provider call, so the pair is an input of the model. -/
structure FactCheckOutcome where
  success : Bool
  confidence : ℚ
  deriving DecidableEq

/-- The inputs `_validate_agent_output` reads: `tools_used` is
`agent_result.get("tools_used", [])`, `output` is
`agent_result.get("output", "")`, `factCheckerRegistered` is
`"fact_checker" in self.tool_registry.tools` (true for the default registry,
`tools.py` lines 31-80), and `context` is the knowledge-base context list —
`none` models Python `None`, the default of `execute_task`. -/
structure ValidationInput where
  tools_used : List String
  output : String
  factCheckerRegistered : Bool
  factCheck : FactCheckOutcome
  context : Option (List SearchResult)

/-- The fallback branch of `_validate_agent_output` (lines 321-334): word-set
overlap against the formatted context when it is longer than 100 characters,
otherwise the permissive low-tier verdict. -/
def fallbackCheck (v : ValidationInput) : Except String ValidationVerdict :=
  let context_text := format_context v.context
  if context_text ≠ "" ∧ 100 < context_text.length then
    let output_words := pyWordSet v.output
    let context_words := pyWordSet context_text
    let overlap := (output_words ∩ context_words).card
    if ((overlap : ℚ) > (output_words.card : ℚ) * (3/10)) then
      Except.ok ⟨true, "Good context overlap", "medium"⟩
    else
      Except.ok ⟨false, "Low context overlap", "low"⟩
  else
    Except.ok ⟨true, "Basic validation passed", "low"⟩

/-- The body of `_validate_agent_output`'s `try` block (lines 293-334), in
source order: tool use wins, then the empty-output check, then the
fact-checker (whose `sources` list comprehension iterates the context and
raises `TypeError` when the context is `None`; an unsuccessful tool call
falls through), then the overlap fallback.  An `Except.error` models an
exception reaching the `except` handler. -/
def validateBody (v : ValidationInput) : Except String ValidationVerdict :=
  if v.tools_used ≠ [] then
    Except.ok ⟨true, "Tools were used", "high"⟩
  else if v.output = "" then
    Except.ok ⟨false, "No output generated", "low"⟩
  else if v.factCheckerRegistered then
    match v.context with
    | none => Except.error "argument of type NoneType is not iterable"
    | some _ =>
      if v.factCheck.success then
        Except.ok ⟨v.factCheck.confidence > 6/10,
          "Fact-check confidence: " ++ toString v.factCheck.confidence,
          if v.factCheck.confidence > 6/10 then "high" else "medium"⟩
      else fallbackCheck v
  else fallbackCheck v

/-- `_validate_agent_output` (lines 290-338): the whole body runs under
`try`, and the `except` handler returns the permissive verdict, so the
function is total — it always returns a verdict dict. -/
def validate_agent_output (v : ValidationInput) : ValidationVerdict :=
  match validateBody v with
  | Except.ok verdict => verdict
  | Except.error _ => ⟨true, "Validation failed, assuming valid", "low"⟩

/-- Did an exception reach the `except` handler of `_validate_agent_output`? -/
def raisesInternally (v : ValidationInput) : Bool :=
  match validateBody v with
  | Except.ok _ => false
  | Except.error _ => true

/-- C8: whenever the agent invoked at least one tool, validation returns the
valid, high-tier verdict — regardless of the output text, the fact-checker
outcome and the context. -/
theorem tool_use_validates_high (v : ValidationInput) (h : v.tools_used ≠ []) :
    validate_agent_output v = ⟨true, "Tools were used", "high"⟩ ∧
    (validate_agent_output v).valid = true := by
  have hbody : validateBody v = Except.ok ⟨true, "Tools were used", "high"⟩ := by
    unfold validateBody
    rw [if_pos h]
  constructor
  · unfold validate_agent_output
    rw [hbody]
  · unfold validate_agent_output
    rw [hbody]

/-- A record that used one tool but produced empty output and has no
context. -/
def toolUseInput : ValidationInput :=
  { tools_used := ["python_executor"], output := "",
    factCheckerRegistered := true, factCheck := ⟨false, 0⟩, context := none }

/-- Witness for C8 at a concrete tool-using record. -/
theorem tool_use_validates_high_witness :
    toolUseInput.tools_used ≠ [] ∧
    validate_agent_output toolUseInput = ⟨true, "Tools were used", "high"⟩ :=
  ⟨by decide, (tool_use_validates_high toolUseInput (by decide)).1⟩

/-- C10: validation is total (`validate_agent_output` always returns a
verdict), and whenever an exception reaches the `except` handler the
returned verdict is valid with the low tier — an internal validation
malfunction can never mark an output invalid. -/
theorem validation_total_fallback (v : ValidationInput)
    (h : raisesInternally v = true) :
    validate_agent_output v = ⟨true, "Validation failed, assuming valid", "low"⟩ ∧
    (validate_agent_output v).valid = true := by
  unfold raisesInternally at h
  unfold validate_agent_output
  cases hb : validateBody v with
  | ok w =>
    rw [hb] at h
    simp at h
  | error e => exact ⟨rfl, rfl⟩

/-- A record with no tools and non-empty output validated against a `None`
context: building the fact-checker `sources` list raises, exercising the
`except` handler. -/
def failingValidationInput : ValidationInput :=
  { tools_used := [], output := "quarterly revenue rose",
    factCheckerRegistered := true, factCheck := ⟨true, 4/5⟩, context := none }

/-- Witness for C10 at a concrete internally-raising input. -/
theorem validation_total_fallback_witness :
    raisesInternally failingValidationInput = true ∧
    validate_agent_output failingValidationInput =
      ⟨true, "Validation failed, assuming valid", "low"⟩ :=
  ⟨rfl, (validation_total_fallback failingValidationInput rfl).1⟩

end WandAI
